import Mathlib

/-!
Verification of the ideal-gas particle simulator (`particula.py`,
`simulacion.py`).

The simulator keeps a list of non-interacting point particles in a
rectangular box; each tick moves every particle by explicit Euler and
reflects it elastically off the walls.  The embedding below translates the
Python source into Lean, with exact rational arithmetic in place of the
Python floats: positions and velocities become `ℚ`, the two-component
numpy arrays `posicion` and `velocidad` become the four scalar fields of
the `Particula` structure, and the in-place mutation of the Python methods
becomes functional state passing (each operation returns the updated
particle or list).
-/

namespace GasIdeal

/-- Embedding of class `Particula` (`particula.py`): `posicion[0]`,
`posicion[1]`, `velocidad[0]`, `velocidad[1]` and `masa`. -/
structure Particula where
  posx : ℚ
  posy : ℚ
  velx : ℚ
  vely : ℚ
  masa : ℚ
deriving DecidableEq, Repr

/-- Embedding of `Particula.mover` (`particula.py` lines 36-44):
`self.posicion += self.velocidad * dt`, componentwise. -/
def mover (p : Particula) (dt : ℚ) : Particula :=
  { p with posx := p.posx + p.velx * dt, posy := p.posy + p.vely * dt }

/-- First block of `Particula.colisionar_pared` (`particula.py` lines
57-62): the `if self.posicion[0] < 0 ... elif self.posicion[0] > ancho`
branch on the x axis. -/
def reflejar_x (p : Particula) (ancho : ℚ) : Particula :=
  if p.posx < 0 then { p with posx := 0, velx := -p.velx }
  else if p.posx > ancho then { p with posx := ancho, velx := -p.velx }
  else p

/-- Second block of `Particula.colisionar_pared` (`particula.py` lines
65-70): the `if self.posicion[1] < 0 ... elif self.posicion[1] > alto`
branch on the y axis. -/
def reflejar_y (p : Particula) (alto : ℚ) : Particula :=
  if p.posy < 0 then { p with posy := 0, vely := -p.vely }
  else if p.posy > alto then { p with posy := alto, vely := -p.vely }
  else p

/-- Embedding of `Particula.colisionar_pared` (`particula.py` lines
46-70): the x-axis block runs first, then the y-axis block runs on the
updated state (the x block never touches the y components, and
conversely). -/
def colisionar_pared (p : Particula) (ancho alto : ℚ) : Particula :=
  reflejar_y (reflejar_x p ancho) alto

/-- Embedding of `Particula.energia_cinetica` (`particula.py` lines
72-80): `0.5 * self.masa * np.dot(self.velocidad, self.velocidad)`. -/
def energia_cinetica (p : Particula) : ℚ :=
  1/2 * p.masa * (p.velx * p.velx + p.vely * p.vely)

/-- Embedding of `paso` (`simulacion.py` lines 45-59): the `for p in
particulas` loop, updating each particle in insertion order by
`p.mover(dt)` then `p.colisionar_pared(ancho, alto)`. -/
def paso : List Particula → ℚ → ℚ → ℚ → List Particula
  | [], _, _, _ => []
  | p :: ps, dt, ancho, alto =>
      colisionar_pared (mover p dt) ancho alto :: paso ps dt ancho alto

/-- Iterated `paso`: one call of `paso` per entry of `dts`, in order, all
with the same box bounds.  Models "any number of subsequent `paso` calls",
each with its own time step. -/
def pasos (particulas : List Particula) (dts : List ℚ) (ancho alto : ℚ) :
    List Particula :=
  dts.foldl (fun ps dt => paso ps dt ancho alto) particulas

/-- Embedding of `energia_total` (`simulacion.py` lines 61-72):
`sum(p.energia_cinetica() for p in particulas)`. -/
def energia_total (particulas : List Particula) : ℚ :=
  (particulas.map energia_cinetica).sum

/-- Embedding of `temperatura` (`simulacion.py` lines 74-95): returns
`0.0` on the empty list, otherwise `energia_total / len / k_B`. -/
def temperatura (particulas : List Particula) (k_B : ℚ) : ℚ :=
  if particulas.isEmpty then 0
  else energia_total particulas / (particulas.length : ℚ) / k_B

/-- Embedding of `crear_gas` (`simulacion.py` lines 12-43).  The loop
draws, for iteration `i`, two uniform samples (`np.random.rand`, values in
`[0,1)`) and two standard-normal samples (`np.random.randn`); the global
random stream is modelled by the two sequences `rand` and `randn`, indexed
by the number of prior calls of the same kind: iteration `i` consumes
`rand (2*i)`, `rand (2*i+1)`, `randn (2*i)`, `randn (2*i+1)`.  Mass is
fixed at `1.0`. -/
def crear_gas (N : ℕ) (ancho alto v_media : ℚ) (rand randn : ℕ → ℚ) :
    List Particula :=
  (List.range N).map fun i =>
    { posx := rand (2*i) * ancho
      posy := rand (2*i+1) * alto
      velx := randn (2*i) * v_media
      vely := randn (2*i+1) * v_media
      masa := 1 }

/-- The no-escape region: position lies in the closed box
`[0, ancho] × [0, alto]`. -/
def in_box (p : Particula) (ancho alto : ℚ) : Prop :=
  0 ≤ p.posx ∧ p.posx ≤ ancho ∧ 0 ≤ p.posy ∧ p.posy ≤ alto

instance (p : Particula) (ancho alto : ℚ) : Decidable (in_box p ancho alto) := by
  unfold in_box; infer_instance

/-! ### Componentwise behaviour of the two reflection blocks -/

lemma reflejar_x_posy (p : Particula) (ancho : ℚ) :
    (reflejar_x p ancho).posy = p.posy := by
  unfold reflejar_x; split_ifs <;> rfl

lemma reflejar_x_vely (p : Particula) (ancho : ℚ) :
    (reflejar_x p ancho).vely = p.vely := by
  unfold reflejar_x; split_ifs <;> rfl

lemma reflejar_x_masa (p : Particula) (ancho : ℚ) :
    (reflejar_x p ancho).masa = p.masa := by
  unfold reflejar_x; split_ifs <;> rfl

lemma reflejar_y_posx (p : Particula) (alto : ℚ) :
    (reflejar_y p alto).posx = p.posx := by
  unfold reflejar_y; split_ifs <;> rfl

lemma reflejar_y_velx (p : Particula) (alto : ℚ) :
    (reflejar_y p alto).velx = p.velx := by
  unfold reflejar_y; split_ifs <;> rfl

lemma reflejar_y_masa (p : Particula) (alto : ℚ) :
    (reflejar_y p alto).masa = p.masa := by
  unfold reflejar_y; split_ifs <;> rfl

lemma reflejar_x_posx (p : Particula) (ancho : ℚ) :
    (reflejar_x p ancho).posx =
      if p.posx < 0 then 0 else if p.posx > ancho then ancho else p.posx := by
  unfold reflejar_x; split_ifs <;> rfl

lemma reflejar_x_velx (p : Particula) (ancho : ℚ) :
    (reflejar_x p ancho).velx =
      if p.posx < 0 ∨ p.posx > ancho then -p.velx else p.velx := by
  unfold reflejar_x
  by_cases h1 : p.posx < 0
  · simp [h1]
  · by_cases h2 : p.posx > ancho
    · simp [h1, h2]
    · simp [h1, h2]

lemma reflejar_y_posy (p : Particula) (alto : ℚ) :
    (reflejar_y p alto).posy =
      if p.posy < 0 then 0 else if p.posy > alto then alto else p.posy := by
  unfold reflejar_y; split_ifs <;> rfl

lemma reflejar_y_vely (p : Particula) (alto : ℚ) :
    (reflejar_y p alto).vely =
      if p.posy < 0 ∨ p.posy > alto then -p.vely else p.vely := by
  unfold reflejar_y
  by_cases h1 : p.posy < 0
  · simp [h1]
  · by_cases h2 : p.posy > alto
    · simp [h1, h2]
    · simp [h1, h2]

lemma colisionar_pared_posx (p : Particula) (ancho alto : ℚ) :
    (colisionar_pared p ancho alto).posx =
      if p.posx < 0 then 0 else if p.posx > ancho then ancho else p.posx := by
  unfold colisionar_pared
  rw [reflejar_y_posx, reflejar_x_posx]

lemma colisionar_pared_velx (p : Particula) (ancho alto : ℚ) :
    (colisionar_pared p ancho alto).velx =
      if p.posx < 0 ∨ p.posx > ancho then -p.velx else p.velx := by
  unfold colisionar_pared
  rw [reflejar_y_velx, reflejar_x_velx]

lemma colisionar_pared_posy (p : Particula) (ancho alto : ℚ) :
    (colisionar_pared p ancho alto).posy =
      if p.posy < 0 then 0 else if p.posy > alto then alto else p.posy := by
  unfold colisionar_pared
  rw [reflejar_y_posy, reflejar_x_posy]

lemma colisionar_pared_vely (p : Particula) (ancho alto : ℚ) :
    (colisionar_pared p ancho alto).vely =
      if p.posy < 0 ∨ p.posy > alto then -p.vely else p.vely := by
  unfold colisionar_pared
  rw [reflejar_y_vely, reflejar_x_vely, reflejar_x_posy]


lemma colisionar_pared_masa (p : Particula) (ancho alto : ℚ) :
    (colisionar_pared p ancho alto).masa = p.masa := by
  unfold colisionar_pared
  rw [reflejar_y_masa, reflejar_x_masa]

/-! ### The reflection step establishes and preserves the box invariant -/

lemma colisionar_pared_in_box (p : Particula) (ancho alto : ℚ)
    (ha : 0 ≤ ancho) (hb : 0 ≤ alto) :
    in_box (colisionar_pared p ancho alto) ancho alto := by
  unfold in_box
  rw [colisionar_pared_posx, colisionar_pared_posy]
  refine ⟨?_, ?_, ?_, ?_⟩ <;> split_ifs <;> linarith

lemma colisionar_pared_of_in_box (p : Particula) (ancho alto : ℚ)
    (h : in_box p ancho alto) : colisionar_pared p ancho alto = p := by
  obtain ⟨h1, h2, h3, h4⟩ := h
  have hx : reflejar_x p ancho = p := by
    unfold reflejar_x
    rw [if_neg (by linarith), if_neg (by linarith)]
  have hy : reflejar_y p alto = p := by
    unfold reflejar_y
    rw [if_neg (by linarith), if_neg (by linarith)]
  unfold colisionar_pared
  rw [hx, hy]

lemma mem_paso (particulas : List Particula) (dt ancho alto : ℚ)
    (q : Particula) (hq : q ∈ paso particulas dt ancho alto) :
    ∃ p ∈ particulas, q = colisionar_pared (mover p dt) ancho alto := by
  induction particulas with
  | nil => simp [paso] at hq
  | cons p ps ih =>
      rw [paso] at hq
      rcases List.mem_cons.mp hq with h | h
      · exact ⟨p, List.mem_cons_self p ps, h⟩
      · obtain ⟨r, hr, he⟩ := ih h
        exact ⟨r, List.mem_cons_of_mem p hr, he⟩

lemma paso_in_box (particulas : List Particula) (dt ancho alto : ℚ)
    (ha : 0 ≤ ancho) (hb : 0 ≤ alto) :
    ∀ q ∈ paso particulas dt ancho alto, in_box q ancho alto := by
  intro q hq
  obtain ⟨p, _, he⟩ := mem_paso particulas dt ancho alto q hq
  rw [he]
  exact colisionar_pared_in_box _ _ _ ha hb

lemma pasos_nil (particulas : List Particula) (ancho alto : ℚ) :
    pasos particulas [] ancho alto = particulas := rfl

lemma pasos_cons (particulas : List Particula) (dt : ℚ) (dts : List ℚ)
    (ancho alto : ℚ) :
    pasos particulas (dt :: dts) ancho alto =
      pasos (paso particulas dt ancho alto) dts ancho alto := rfl

lemma pasos_in_box (particulas : List Particula) (dts : List ℚ)
    (ancho alto : ℚ) (ha : 0 ≤ ancho) (hb : 0 ≤ alto)
    (h0 : ∀ q ∈ particulas, in_box q ancho alto) :
    ∀ q ∈ pasos particulas dts ancho alto, in_box q ancho alto := by
  induction dts generalizing particulas with
  | nil => simpa [pasos_nil] using h0
  | cons dt dts ih =>
      rw [pasos_cons]
      exact ih _ (paso_in_box particulas dt ancho alto ha hb)

/-! ### Kinetic energy is invariant under moving and reflecting -/

lemma energia_cinetica_mover (p : Particula) (dt : ℚ) :
    energia_cinetica (mover p dt) = energia_cinetica p := rfl

lemma energia_cinetica_reflejar_x (p : Particula) (ancho : ℚ) :
    energia_cinetica (reflejar_x p ancho) = energia_cinetica p := by
  unfold energia_cinetica reflejar_x
  split_ifs <;> simp

lemma energia_cinetica_reflejar_y (p : Particula) (alto : ℚ) :
    energia_cinetica (reflejar_y p alto) = energia_cinetica p := by
  unfold energia_cinetica reflejar_y
  split_ifs <;> simp

lemma energia_cinetica_colisionar_pared (p : Particula) (ancho alto : ℚ) :
    energia_cinetica (colisionar_pared p ancho alto) = energia_cinetica p := by
  unfold colisionar_pared
  rw [energia_cinetica_reflejar_y, energia_cinetica_reflejar_x]

lemma energia_total_paso (particulas : List Particula) (dt ancho alto : ℚ) :
    energia_total (paso particulas dt ancho alto) = energia_total particulas := by
  induction particulas with
  | nil => rfl
  | cons p ps ih =>
      unfold energia_total at ih ⊢
      rw [paso, List.map_cons, List.map_cons, List.sum_cons, List.sum_cons, ih,
        energia_cinetica_colisionar_pared, energia_cinetica_mover]

lemma energia_total_pasos (particulas : List Particula) (dts : List ℚ)
    (ancho alto : ℚ) :
    energia_total (pasos particulas dts ancho alto) = energia_total particulas := by
  induction dts generalizing particulas with
  | nil => rw [pasos_nil]
  | cons dt dts ih =>
      rw [pasos_cons, ih, energia_total_paso]

/-! ### Structural behaviour of a step -/

lemma mover_masa (p : Particula) (dt : ℚ) : (mover p dt).masa = p.masa := rfl

lemma paso_eq_map (particulas : List Particula) (dt ancho alto : ℚ) :
    paso particulas dt ancho alto =
      particulas.map fun p => colisionar_pared (mover p dt) ancho alto := by
  induction particulas with
  | nil => rfl
  | cons p ps ih => rw [paso, List.map_cons, ih]

lemma paso_length (particulas : List Particula) (dt ancho alto : ℚ) :
    (paso particulas dt ancho alto).length = particulas.length := by
  rw [paso_eq_map, List.length_map]

lemma paso_map_masa (particulas : List Particula) (dt ancho alto : ℚ) :
    (paso particulas dt ancho alto).map Particula.masa =
      particulas.map Particula.masa := by
  rw [paso_eq_map, List.map_map]
  refine List.map_congr_left fun p _ => ?_
  show (colisionar_pared (mover p dt) ancho alto).masa = p.masa
  rw [colisionar_pared_masa, mover_masa]

lemma pasos_map_masa (particulas : List Particula) (dts : List ℚ)
    (ancho alto : ℚ) :
    (pasos particulas dts ancho alto).map Particula.masa =
      particulas.map Particula.masa := by
  induction dts generalizing particulas with
  | nil => rw [pasos_nil]
  | cons dt dts ih => rw [pasos_cons, ih, paso_map_masa]

lemma pasos_length (particulas : List Particula) (dts : List ℚ)
    (ancho alto : ℚ) :
    (pasos particulas dts ancho alto).length = particulas.length := by
  have h := congrArg List.length (pasos_map_masa particulas dts ancho alto)
  rwa [List.length_map, List.length_map] at h

/-! ### Sign of the kinetic energy -/

lemma energia_cinetica_nonneg (p : Particula) (hm : 0 ≤ p.masa) :
    0 ≤ energia_cinetica p := by
  unfold energia_cinetica
  have hs : 0 ≤ p.velx * p.velx + p.vely * p.vely :=
    add_nonneg (mul_self_nonneg _) (mul_self_nonneg _)
  have hh : (0:ℚ) ≤ 1/2 * p.masa := by linarith
  exact mul_nonneg hh hs

lemma energia_cinetica_eq_zero_iff (p : Particula) (hm : 0 < p.masa) :
    energia_cinetica p = 0 ↔ p.velx = 0 ∧ p.vely = 0 := by
  unfold energia_cinetica
  constructor
  · intro h
    have hs : p.velx * p.velx + p.vely * p.vely = 0 := by
      rcases mul_eq_zero.mp h with h1 | h1
      · rcases mul_eq_zero.mp h1 with h2 | h2
        · norm_num at h2
        · exact absurd h2 (ne_of_gt hm)
      · exact h1
    have hx : p.velx * p.velx = 0 := by
      nlinarith [mul_self_nonneg p.velx, mul_self_nonneg p.vely]
    have hy : p.vely * p.vely = 0 := by
      nlinarith [mul_self_nonneg p.velx, mul_self_nonneg p.vely]
    exact ⟨mul_self_eq_zero.mp hx, mul_self_eq_zero.mp hy⟩
  · rintro ⟨hx, hy⟩
    rw [hx, hy]
    ring

lemma energia_total_nonneg (particulas : List Particula)
    (hm : ∀ p ∈ particulas, 0 < p.masa) : 0 ≤ energia_total particulas := by
  induction particulas with
  | nil => exact le_refl _
  | cons p ps ih =>
      unfold energia_total at ih ⊢
      rw [List.map_cons, List.sum_cons]
      have h1 := energia_cinetica_nonneg p
        (le_of_lt (hm p (List.mem_cons_self p ps)))
      have h2 := ih fun q hq => hm q (List.mem_cons_of_mem p hq)
      linarith

lemma energia_total_eq_zero_iff (particulas : List Particula)
    (hm : ∀ p ∈ particulas, 0 < p.masa) :
    energia_total particulas = 0 ↔
      ∀ p ∈ particulas, p.velx = 0 ∧ p.vely = 0 := by
  induction particulas with
  | nil => simp [energia_total]
  | cons p ps ih =>
      have hp := hm p (List.mem_cons_self p ps)
      have hps : ∀ q ∈ ps, 0 < q.masa :=
        fun q hq => hm q (List.mem_cons_of_mem p hq)
      have h1 := energia_cinetica_nonneg p (le_of_lt hp)
      have h2 := energia_total_nonneg ps hps
      unfold energia_total at h2 ⊢
      rw [List.map_cons, List.sum_cons]
      constructor
      · intro h q hq
        have he : energia_cinetica p = 0 ∧
            (ps.map energia_cinetica).sum = 0 := by constructor <;> linarith
        rcases List.mem_cons.mp hq with hq | hq
        · rw [hq]
          exact (energia_cinetica_eq_zero_iff p hp).mp he.1
        · exact ((ih hps).mp he.2) q hq
      · intro h
        have he : energia_cinetica p = 0 :=
          (energia_cinetica_eq_zero_iff p hp).mpr (h p (List.mem_cons_self p ps))
        have hr : (ps.map energia_cinetica).sum = 0 :=
          (ih hps).mpr fun q hq => h q (List.mem_cons_of_mem p hq)
        rw [he, hr, add_zero]

/-! ### crear_gas membership -/

lemma mem_crear_gas (N : ℕ) (ancho alto v_media : ℚ) (rand randn : ℕ → ℚ)
    (q : Particula) (hq : q ∈ crear_gas N ancho alto v_media rand randn) :
    ∃ i < N, q =
      { posx := rand (2*i) * ancho
        posy := rand (2*i+1) * alto
        velx := randn (2*i) * v_media
        vely := randn (2*i+1) * v_media
        masa := 1 } := by
  unfold crear_gas at hq
  obtain ⟨i, hi, he⟩ := List.mem_map.mp hq
  exact ⟨i, List.mem_range.mp hi, he.symm⟩

/-! ### The claims -/

/-- C2: energy conservation.  For every particle list, every time step
`dt`, every box, and every sequence of `paso` calls, `energia_total` after
the calls equals `energia_total` before, exactly: `mover` never changes
velocity and `colisionar_pared` only negates velocity components, which
leaves each kinetic energy `0.5*m*(vx^2+vy^2)` unchanged. -/
theorem C2_energy_conservation (particulas : List Particula) (dt : ℚ)
    (dts : List ℚ) (ancho alto : ℚ) :
    energia_total (paso particulas dt ancho alto) = energia_total particulas ∧
    energia_total (pasos particulas dts ancho alto) = energia_total particulas :=
  ⟨energia_total_paso particulas dt ancho alto,
   energia_total_pasos particulas dts ancho alto⟩

/-- C3: step decomposition.  `paso` updates every particle in insertion
order, sending the i-th input particle to
`colisionar_pared (mover p dt) ancho alto` (move first, then reflect), and
`mover` adds `velocity * dt` to the position and has no other effect:
velocity and mass are untouched, and `dt` may be any rational, negative
included. -/
theorem C3_step_decomposition (particulas : List Particula) (p : Particula)
    (dt ancho alto : ℚ) :
    paso particulas dt ancho alto =
      (particulas.map fun q => colisionar_pared (mover q dt) ancho alto) ∧
    (mover p dt).posx = p.posx + p.velx * dt ∧
    (mover p dt).posy = p.posy + p.vely * dt ∧
    (mover p dt).velx = p.velx ∧
    (mover p dt).vely = p.vely ∧
    (mover p dt).masa = p.masa :=
  ⟨paso_eq_map particulas dt ancho alto, rfl, rfl, rfl, rfl, rfl⟩

/-- C5: temperature guard and formula.  `temperatura` returns `0` on the
empty list (no division by the length occurs), and on a non-empty list
returns `energia_total / n / k_B` where `n` is the number of
particles. -/
theorem C5_temperature_guard (particulas : List Particula) (k_B : ℚ) :
    temperatura [] k_B = 0 ∧
    (particulas ≠ [] →
      temperatura particulas k_B =
        energia_total particulas / (particulas.length : ℚ) / k_B) := by
  refine ⟨rfl, fun h => ?_⟩
  unfold temperatura
  rw [if_neg (by simpa [List.isEmpty_iff] using h)]

/-- C5 witness: a concrete one-particle list takes the formula branch. -/
theorem C5_temperature_guard_witness :
    temperatura [⟨0, 0, 3, 4, 2⟩] 2 =
      energia_total [⟨0, 0, 3, 4, 2⟩] /
        (([(⟨0, 0, 3, 4, 2⟩ : Particula)].length : ℚ)) / 2 :=
  (C5_temperature_guard [⟨0, 0, 3, 4, 2⟩] 2).2 (by simp)

/-- C8: total-energy sign and zero characterization.  With all masses
positive, `energia_total` is nonnegative, equals `0` on the empty list,
and equals `0` exactly when the velocity of every particle is the zero
vector. -/
theorem C8_energia_total_sign (particulas : List Particula)
    (hm : ∀ p ∈ particulas, 0 < p.masa) :
    0 ≤ energia_total particulas ∧
    energia_total ([] : List Particula) = 0 ∧
    (energia_total particulas = 0 ↔
      ∀ p ∈ particulas, p.velx = 0 ∧ p.vely = 0) :=
  ⟨energia_total_nonneg particulas hm, rfl,
   energia_total_eq_zero_iff particulas hm⟩

/-- C8 witness: a concrete one-particle list with positive mass and
nonzero velocity has nonnegative total energy. -/
theorem C8_energia_total_sign_witness :
    0 ≤ energia_total [⟨0, 0, 1, 2, 3⟩] :=
  (C8_energia_total_sign [⟨0, 0, 1, 2, 3⟩] (by
    intro p hp
    simp only [List.mem_singleton] at hp
    rw [hp]
    norm_num)).1

/-- C9: reflection is idempotent.  For nonnegative box bounds, applying
`colisionar_pared` twice yields the same particle as applying it once:
after one application both coordinates lie in the closed box, so the
strict comparisons all fail on the second application. -/
theorem C9_reflection_idempotent (p : Particula) (ancho alto : ℚ)
    (ha : 0 ≤ ancho) (hb : 0 ≤ alto) :
    colisionar_pared (colisionar_pared p ancho alto) ancho alto =
      colisionar_pared p ancho alto :=
  colisionar_pared_of_in_box _ _ _ (colisionar_pared_in_box p ancho alto ha hb)

/-- C9 witness: a concrete corner-overshoot particle, reflected twice. -/
theorem C9_reflection_idempotent_witness :
    colisionar_pared (colisionar_pared ⟨-3, 9, 1, -1, 1⟩ 4 4) 4 4 =
      colisionar_pared ⟨-3, 9, 1, -1, 1⟩ 4 4 :=
  C9_reflection_idempotent ⟨-3, 9, 1, -1, 1⟩ 4 4 (by norm_num) (by norm_num)

/-- C10: frame property of a step.  `paso` (and any sequence of `paso`
calls) sends the i-th input particle to a function of that particle
alone, so it never adds, removes or reorders particles; the list length
is preserved and the mass of every particle is unchanged. -/
theorem C10_paso_frame (particulas : List Particula) (dt : ℚ) (dts : List ℚ)
    (ancho alto : ℚ) :
    paso particulas dt ancho alto =
      (particulas.map fun q => colisionar_pared (mover q dt) ancho alto) ∧
    (paso particulas dt ancho alto).length = particulas.length ∧
    (paso particulas dt ancho alto).map Particula.masa =
      particulas.map Particula.masa ∧
    (pasos particulas dts ancho alto).length = particulas.length ∧
    (pasos particulas dts ancho alto).map Particula.masa =
      particulas.map Particula.masa :=
  ⟨paso_eq_map particulas dt ancho alto,
   paso_length particulas dt ancho alto,
   paso_map_masa particulas dt ancho alto,
   pasos_length particulas dts ancho alto,
   pasos_map_masa particulas dts ancho alto⟩

/-- C1: no-escape invariant.  For a gas created by `crear_gas` (uniform
draws in `[0,1)`, positive box) and any sequence of `paso` calls with
arbitrary time steps, the position of every particle stays in the closed box
`[0, ancho] × [0, alto]`; moreover `colisionar_pared` establishes the
in-box position for an arbitrary particle, however far it overshot. -/
theorem C1_no_escape (N : ℕ) (ancho alto v_media : ℚ) (rand randn : ℕ → ℚ)
    (hrand : ∀ i, 0 ≤ rand i ∧ rand i < 1) (ha : 0 < ancho) (hb : 0 < alto) :
    (∀ dts : List ℚ,
      ∀ q ∈ pasos (crear_gas N ancho alto v_media rand randn) dts ancho alto,
        in_box q ancho alto) ∧
    (∀ p : Particula, in_box (colisionar_pared p ancho alto) ancho alto) := by
  refine ⟨fun dts q hq => ?_, fun p =>
    colisionar_pared_in_box p ancho alto (le_of_lt ha) (le_of_lt hb)⟩
  refine pasos_in_box _ dts ancho alto (le_of_lt ha) (le_of_lt hb)
    (fun r hr => ?_) q hq
  obtain ⟨i, _, he⟩ := mem_crear_gas N ancho alto v_media rand randn r hr
  obtain ⟨hu1, hu2⟩ := hrand (2*i)
  obtain ⟨hv1, hv2⟩ := hrand (2*i+1)
  rw [he]
  refine ⟨mul_nonneg hu1 (le_of_lt ha), ?_, mul_nonneg hv1 (le_of_lt hb), ?_⟩
  · show rand (2*i) * ancho ≤ ancho
    nlinarith
  · show rand (2*i+1) * alto ≤ alto
    nlinarith

/-- C1 witness: a particle that overshot far past both walls of the box
`[0,2] × [0,3]` is put back inside the closed box by one reflection. -/
theorem C1_no_escape_witness :
    in_box (colisionar_pared ⟨-7, 99, 1, 2, 1⟩ 2 3) 2 3 :=
  (C1_no_escape 1 2 3 1 (fun _ => 1/2) (fun _ => 1)
      (fun i => by norm_num) (by norm_num) (by norm_num)).2 ⟨-7, 99, 1, 2, 1⟩

/-- C4: wall-reflection semantics.  Each axis is treated independently
with mutually exclusive low/high branches: a coordinate `< 0` is clamped
to `0` with that velocity component negated, else a coordinate above the
bound is clamped to the bound with that component negated, else the axis
is untouched; mass is never changed; a particle exactly at `0` or exactly
at the bound is not reflected; and a particle outside both bounds has
both velocity components flipped in the same call. -/
theorem C4_reflection_semantics (p : Particula) (ancho alto : ℚ)
    (ha : 0 ≤ ancho) (hb : 0 ≤ alto) :
    ((colisionar_pared p ancho alto).posx =
      if p.posx < 0 then 0 else if p.posx > ancho then ancho else p.posx) ∧
    ((colisionar_pared p ancho alto).velx =
      if p.posx < 0 ∨ p.posx > ancho then -p.velx else p.velx) ∧
    ((colisionar_pared p ancho alto).posy =
      if p.posy < 0 then 0 else if p.posy > alto then alto else p.posy) ∧
    ((colisionar_pared p ancho alto).vely =
      if p.posy < 0 ∨ p.posy > alto then -p.vely else p.vely) ∧
    (colisionar_pared p ancho alto).masa = p.masa ∧
    ((p.posx = 0 ∨ p.posx = ancho) →
      (colisionar_pared p ancho alto).posx = p.posx ∧
      (colisionar_pared p ancho alto).velx = p.velx) ∧
    ((p.posy = 0 ∨ p.posy = alto) →
      (colisionar_pared p ancho alto).posy = p.posy ∧
      (colisionar_pared p ancho alto).vely = p.vely) ∧
    ((p.posx < 0 ∨ p.posx > ancho) → (p.posy < 0 ∨ p.posy > alto) →
      (colisionar_pared p ancho alto).velx = -p.velx ∧
      (colisionar_pared p ancho alto).vely = -p.vely) := by
  refine ⟨colisionar_pared_posx p ancho alto, colisionar_pared_velx p ancho alto,
    colisionar_pared_posy p ancho alto, colisionar_pared_vely p ancho alto,
    colisionar_pared_masa p ancho alto, fun hx => ?_, fun hy => ?_,
    fun hx hy => ?_⟩
  · have h1 : ¬ p.posx < 0 := by rcases hx with h | h <;> rw [h] <;> linarith
    have h2 : ¬ p.posx > ancho := by rcases hx with h | h <;> rw [h] <;> linarith
    rw [colisionar_pared_posx, colisionar_pared_velx, if_neg h1, if_neg h2,
      if_neg (by tauto)]
    exact ⟨rfl, rfl⟩
  · have h1 : ¬ p.posy < 0 := by rcases hy with h | h <;> rw [h] <;> linarith
    have h2 : ¬ p.posy > alto := by rcases hy with h | h <;> rw [h] <;> linarith
    rw [colisionar_pared_posy, colisionar_pared_vely, if_neg h1, if_neg h2,
      if_neg (by tauto)]
    exact ⟨rfl, rfl⟩
  · rw [colisionar_pared_velx, colisionar_pared_vely, if_pos hx, if_pos hy]
    exact ⟨rfl, rfl⟩

/-- C4 witness: a corner overshoot past the low-x and high-y walls flips
both velocity components. -/
theorem C4_reflection_semantics_witness :
    (colisionar_pared ⟨-1, 9, 3, 4, 1⟩ 4 4).velx = -(3:ℚ) ∧
    (colisionar_pared ⟨-1, 9, 3, 4, 1⟩ 4 4).vely = -(4:ℚ) :=
  (C4_reflection_semantics ⟨-1, 9, 3, 4, 1⟩ 4 4 (by norm_num)
      (by norm_num)).2.2.2.2.2.2.2
    (Or.inl (by norm_num)) (Or.inr (by norm_num))

/-- C6: boundary-hit scenario.  A particle exactly at `posx = ancho` with
positive x-velocity, moved by any positive `dt` and then reflected, ends
with `posx = ancho` and its x-velocity negated: the move pushes it past
the bound, the reflection clamps and reverses it. -/
theorem C6_boundary_hit (p : Particula) (dt ancho alto : ℚ)
    (hx : p.posx = ancho) (hv : 0 < p.velx) (hdt : 0 < dt)
    (ha : 0 ≤ ancho) :
    (colisionar_pared (mover p dt) ancho alto).posx = ancho ∧
    (colisionar_pared (mover p dt) ancho alto).velx = -p.velx := by
  have hmx : (mover p dt).posx = ancho + p.velx * dt := by
    show p.posx + p.velx * dt = ancho + p.velx * dt
    rw [hx]
  have hgt : (mover p dt).posx > ancho := by rw [hmx]; nlinarith
  have hnl : ¬ (mover p dt).posx < 0 := by rw [hmx]; nlinarith
  constructor
  · rw [colisionar_pared_posx, if_neg hnl, if_pos hgt]
  · rw [colisionar_pared_velx, if_pos (Or.inr hgt)]
    rfl

/-- C6 witness: a particle at the right wall of a `5 × 10` box with
`velx = 2`, stepped with `dt = 1`. -/
theorem C6_boundary_hit_witness :
    (colisionar_pared (mover ⟨5, 1, 2, 0, 1⟩ 1) 5 10).posx = 5 ∧
    (colisionar_pared (mover ⟨5, 1, 2, 0, 1⟩ 1) 5 10).velx = -(2:ℚ) :=
  C6_boundary_hit ⟨5, 1, 2, 0, 1⟩ 1 5 10 rfl (by norm_num) (by norm_num)
    (by norm_num)

/-- C7: gas creation postcondition.  With uniform draws in `[0,1)` and a
positive box, `crear_gas N ...` returns exactly `N` particles, each with
mass `1`, position components in `[0, ancho) × [0, alto)` (the uniform
draw scaled by the box dimension), and velocity components equal to the
normal draws scaled by `v_media`. -/
theorem C7_crear_gas_post (N : ℕ) (ancho alto v_media : ℚ)
    (rand randn : ℕ → ℚ) (hrand : ∀ i, 0 ≤ rand i ∧ rand i < 1)
    (ha : 0 < ancho) (hb : 0 < alto) :
    (crear_gas N ancho alto v_media rand randn).length = N ∧
    (∀ p ∈ crear_gas N ancho alto v_media rand randn,
      p.masa = 1 ∧ 0 ≤ p.posx ∧ p.posx < ancho ∧
      0 ≤ p.posy ∧ p.posy < alto) ∧
    (∀ i, i < N →
      (crear_gas N ancho alto v_media rand randn)[i]? =
        some { posx := rand (2*i) * ancho
               posy := rand (2*i+1) * alto
               velx := randn (2*i) * v_media
               vely := randn (2*i+1) * v_media
               masa := 1 }) := by
  refine ⟨by simp [crear_gas], fun p hp => ?_, fun i hi => ?_⟩
  · obtain ⟨i, _, he⟩ := mem_crear_gas N ancho alto v_media rand randn p hp
    obtain ⟨hu1, hu2⟩ := hrand (2*i)
    obtain ⟨hv1, hv2⟩ := hrand (2*i+1)
    rw [he]
    refine ⟨rfl, mul_nonneg hu1 (le_of_lt ha), ?_,
      mul_nonneg hv1 (le_of_lt hb), ?_⟩
    · show rand (2*i) * ancho < ancho
      nlinarith
    · show rand (2*i+1) * alto < alto
      nlinarith
  · unfold crear_gas
    rw [List.getElem?_map, List.getElem?_range hi]
    rfl

/-- C7 witness: a two-particle gas from concrete streams has length
two. -/
theorem C7_crear_gas_post_witness :
    (crear_gas 2 5 7 2 (fun _ => 1/3) fun i => (i:ℚ)).length = 2 :=
  (C7_crear_gas_post 2 5 7 2 (fun _ => 1/3) (fun i => (i:ℚ))
      (fun i => by norm_num) (by norm_num) (by norm_num)).1

end GasIdeal
